import Mathlib

/-!
Verification of the grok2api gateway core against its specification.

The development shallowly embeds, in order:
* `Usage` — the usage-sync cooldown breaker of `app/services/grok/usage.py`;
* `TokenMgr` — the token pool / reservation / quota manager
  (`app/services/token/…`);
* `Chat` — the retry orchestrator `ChatService.completions` and the wrapped
  stream of `app/services/grok/chat.py`;
* `Processor` — the streaming / collecting protocol translator
  (`app/services/grok/processor.py`).

Timestamps and durations are modelled as `Int` seconds; the orchestrator's
fractional backoff delays are modelled in deciseconds (`Nat`).
-/

namespace Usage

/-- `_get_sync_backoff_seconds()`: the configured
`grok.usage_sync_backoff_seconds`, clamped with `max(0, value)`. -/
def syncBackoffSeconds (configured : Int) : Int := max 0 configured

/-- `_get_sync_cooldown_remaining()`:
`max(0.0, _USAGE_SYNC_COOLDOWN_UNTIL - time.time())`. -/
def syncCooldownRemaining (cooldownUntil now : Int) : Int :=
  max 0 (cooldownUntil - now)

/-- State update performed by `_arm_sync_cooldown(status_code)` on the
module-level `_USAGE_SYNC_COOLDOWN_UNTIL` (usage.py lines 56-74): returns the
new value of the stored deadline.  Arms only on status 404, only when the
clamped backoff is positive, and never moves the stored deadline backwards. -/
def armSyncCooldown (statusCode configured now cooldownUntil : Int) : Int :=
  if statusCode ≠ 404 then cooldownUntil
  else
    let ttl := syncBackoffSeconds configured
    if ttl ≤ 0 then cooldownUntil
    else
      let newUntil := now + ttl
      if newUntil ≤ cooldownUntil then cooldownUntil else newUntil

/-- Outcome of one upstream call of the quota collaborator
(`session.post(LIMITS_API, …)`). -/
inductive QuotaUpstream where
  | ok (remaining : Int)
  | err (status : Int)
deriving DecidableEq, Repr

/-- What `UsageService.get` produces for the caller. -/
inductive GetOutcome where
  | empty
  | data (remaining : Int)
  | raised (status : Int)
deriving DecidableEq, Repr

/-- Result of one `UsageService.get` call: the caller-visible outcome, the new
value of `_USAGE_SYNC_COOLDOWN_UNTIL`, and whether a network request was
issued. -/
structure GetResult where
  outcome : GetOutcome
  cooldownUntil : Int
  networkCalled : Bool
deriving DecidableEq, Repr

/-- `UsageService.get` (usage.py lines 92-176) for a single upstream request:
if the cooldown is still armed the call returns `{}` at once without touching
the network; otherwise `do_request` runs, arming the cooldown on a 404 before
raising on any non-200 status.  The `retry_on_status` wrapper merely repeats
`do_request`; the cooldown check and the arming are unaffected by it, so it is
not modelled here. -/
def usageGet (cooldownUntil now configured : Int) (upstream : QuotaUpstream) :
    GetResult :=
  if 0 < syncCooldownRemaining cooldownUntil now then
    ⟨.empty, cooldownUntil, false⟩
  else
    match upstream with
    | .ok remaining => ⟨.data remaining, cooldownUntil, true⟩
    | .err s =>
        ⟨.raised s,
         if s = 404 then armSyncCooldown s configured now cooldownUntil
         else cooldownUntil,
         true⟩

end Usage

namespace TokenMgr

/-- Modelled from the spec: the token lifecycle states of §3 (the manager
module `app/services/token/models.py` is not part of the sources at hand;
its tests name `TokenStatus.ACTIVE` etc.). -/
inductive TokenStatus where
  | ACTIVE
  | COOLING
  | EXPIRED
  | DISABLED
deriving DecidableEq, Repr

/-- Modelled from the spec: the `TokenRecord` of §3 / the `TokenInfo` of the
tests (`app/services/token/models.py` is not part of the sources at hand).
`quota < 0` is the unlimited sentinel; `inflight_until = 0` means the record
is not reserved; the tests read `inflight_request_id` as the stored
reservation id. -/
structure TokenInfo where
  token : String
  status : TokenStatus := .ACTIVE
  quota : Int := -1
  heavy_quota : Int := -1
  use_count : Nat := 0
  fail_count : Nat := 0
  inflight_until : Int := 0
  inflight_request_id : Option String := none
deriving DecidableEq, Repr

/-- Modelled from the spec: a named, insertion-ordered collection of token
records, keys unique by token string (§3, `app/services/token/pool.py` is not
part of the sources at hand). -/
structure TokenPool where
  name : String
  tokens : List TokenInfo
deriving DecidableEq, Repr

/-- Eligibility test of `TokenPool.select` (§4.1): ACTIVE, not excluded, not
reserved at `now`, and quota unlimited or positive. -/
def eligible (now : Int) (exclude : List String) (r : TokenInfo) : Bool :=
  r.status == .ACTIVE && decide (r.token ∉ exclude) &&
    decide (r.inflight_until ≤ now) &&
    (decide (r.quota < 0) || decide (0 < r.quota))

/-- Modelled from the spec: `select(exclude)` returns the first (earliest
inserted) eligible record (§4.1). -/
def select (p : TokenPool) (now : Int) (exclude : List String) :
    Option TokenInfo :=
  p.tokens.find? (eligible now exclude)

/-- Stamp the inflight fields of the record(s) carrying `t` (keys are unique
by token string, §3). -/
def mark_inflight (p : TokenPool) (t : String) (now ttl : Int)
    (rid : String) : TokenPool :=
  { p with
    tokens := p.tokens.map fun r =>
      if r.token = t then
        { r with inflight_until := now + ttl, inflight_request_id := some rid }
      else r }

/-- Modelled from the spec: `reserve_token_for_model` restricted to the pool
the model resolves to (§4.2): select under the pool lock, stamp
`inflight_until = now + reservation_ttl` and the fresh reservation id, and
return `(token, reservation_id)`, or `(none, unchanged pool)` when no record
is eligible. -/
def reserve_token_for_model (p : TokenPool) (exclude : List String)
    (now ttl : Int) (rid : String) : Option (String × String) × TokenPool :=
  match select p now exclude with
  | none => (none, p)
  | some r => (some (r.token, rid), mark_inflight p r.token now ttl rid)

/-- The match test of `release_token_reservation`: same token and the stored
reservation id still equals the released one. -/
def release_match (t rid : String) (r : TokenInfo) : Bool :=
  r.token == t && r.inflight_request_id == some rid

/-- Clear the inflight fields of a record when `release_match` holds. -/
def clear_if_match (t rid : String) (r : TokenInfo) : TokenInfo :=
  if release_match t rid r then
    { r with inflight_until := 0, inflight_request_id := none }
  else r

/-- Modelled from the spec: `release_token_reservation(token, reservation_id)`
clears the inflight fields only if the stored reservation id still matches,
and returns whether a release occurred; a stale or repeated id is a no-op
(§4.2). -/
def release_token_reservation (p : TokenPool) (t rid : String) :
    Bool × TokenPool :=
  if p.tokens.any (release_match t rid) then
    (true, { p with tokens := p.tokens.map (clear_if_match t rid) })
  else (false, p)

/-- Quota decrement used by the fast path of `sync_usage`: the unlimited
sentinel is left alone, a finite quota drops by one. -/
def consume_quota (q : Int) : Int := if q < 0 then q else q - 1

/-- Modelled from the spec: the synchronous fast path of `sync_usage` (§4.2)
decrements the local quota (by 1, or not at all if `consume_on_fail` is false
and the call failed, i.e. `is_usage` is false) and increments `use_count`,
returning immediately without waiting on network I/O; returns whether the
token was found. -/
def sync_usage_fast (p : TokenPool) (t : String)
    (consume_on_fail is_usage : Bool) : Bool × TokenPool :=
  if p.tokens.any (fun r => r.token == t) then
    (true,
     { p with
       tokens := p.tokens.map fun r =>
         if r.token = t then
           { r with
             quota := if consume_on_fail || is_usage then consume_quota r.quota
                      else r.quota,
             use_count := r.use_count + 1 }
         else r })
  else (false, p)

/-- Modelled from the spec: the detached background task of `sync_usage`
(§4.2) overwrites the local quota with the authoritative remaining value
reported by the upstream quota collaborator, touching nothing else. -/
def sync_usage_correct (p : TokenPool) (t : String) (remaining : Int) :
    TokenPool :=
  { p with
    tokens := p.tokens.map fun r =>
      if r.token = t then { r with quota := remaining } else r }

/-- Lookup by token string (first record carrying the key). -/
def lookup_token (p : TokenPool) (t : String) : Option TokenInfo :=
  p.tokens.find? (fun r => r.token == t)

/-- The two-token pool of `test_reserve_token_avoids_duplicate_until_release`:
`tok-a` (quota 100) inserted before `tok-b` (quota 80), both ACTIVE. -/
def demo_pool : TokenPool :=
  ⟨"ssoBasic",
   [⟨"tok-a", .ACTIVE, 100, -1, 0, 0, 0, none⟩,
    ⟨"tok-b", .ACTIVE, 80, -1, 0, 0, 0, none⟩]⟩

/-- `demo_pool` after reserving at time 0 with a 60-second reservation ttl. -/
def demo_pool_reserved : TokenPool :=
  (reserve_token_for_model demo_pool [] 0 60 "req-1").2

/-- The `tok-a` record as stamped inside `demo_pool_reserved`. -/
def demo_rec_a : TokenInfo :=
  ⟨"tok-a", .ACTIVE, 100, -1, 0, 0, 0 + 60, some "req-1"⟩

/-- The one-token pool of `test_sync_usage_consumes_locally_before_remote_sync`:
`tok-1` with quota 10. -/
def demo_pool_q : TokenPool :=
  ⟨"ssoBasic", [⟨"tok-1", .ACTIVE, 10, -1, 0, 0, 0, none⟩]⟩

end TokenMgr


namespace Chat

/-- Result of one `GrokChatService.chat_openai` call as seen by the retry loop
of `ChatService.completions` (chat.py lines 461-495): success, an
`UpstreamException` carrying `e.details.get("status")` (absent for transport
errors), or a non-upstream `AppException` such as the `ValidationException`
raised for an unknown model or unsupported message content. -/
inductive ChatOutcome where
  | success
  | upstreamErr (status : Option Int)
  | validationErr
deriving DecidableEq, Repr

/-- Observable collaborator calls of the retry loop, in program order.
`sleepDs` is the `asyncio.sleep(0.5 * (attempt + 1))` backoff, in
deciseconds; `statFail` is `request_stats.record_request(model,
success=False)`. -/
inductive Event where
  | reserveCall (exclude : List String)
  | releaseCall (token rid : String)
  | recordFail (token : String) (status : Int)
  | sleepDs (ds : Nat)
  | statFail
deriving DecidableEq, Repr

/-- How the retry loop of `ChatService.completions` terminates. -/
inductive LoopResult where
  | ok (token rid : String)
  | rateLimited
  | upstreamError (status : Option Int)
  | validationError
deriving DecidableEq, Repr

/-- The retry loop of `ChatService.completions` (chat.py lines 452-514).

`reserve` is `token_mgr.reserve_token_for_model(model, exclude=…)`; `outcome`
gives the result of `service.chat_openai` on each attempt; the attempt list is
`range(max_retry + 1)`.  `lastError` threads the `last_error` variable.  The
empty-list case is the code after the `for` (lines 497-514): with no token
reserved a failed request-stat is recorded and the 429 `AppException` raised,
and with `last_error` set a failed request-stat is recorded and the last error
re-raised (in the source that branch is unreachable: the final attempt either
breaks or raises inside the loop). -/
def completionsLoop (reserve : List String → Option (String × String))
    (outcome : Nat → ChatOutcome) (maxRetry : Nat) :
    List Nat → List String → Option (Option Int) → List Event × LoopResult
  | [], _, some status => ([.statFail], .upstreamError status)
  | [], _, none => ([.statFail], .rateLimited)
  | attempt :: restAttempts, excluded, _ =>
    match reserve excluded with
    | none => ([.reserveCall excluded, .statFail], .rateLimited)
    | some (tok, rid) =>
      match outcome attempt with
      | .success => ([.reserveCall excluded], .ok tok rid)
      | .validationErr =>
          ([.reserveCall excluded, .releaseCall tok rid, .statFail],
           .validationError)
      | .upstreamErr status =>
        match status with
        | some s =>
          if s ≠ 200 ∧ attempt < maxRetry then
            let rest := completionsLoop reserve outcome maxRetry restAttempts
              (excluded ++ [tok]) (some (some s))
            ([.reserveCall excluded, .releaseCall tok rid, .recordFail tok s,
              .sleepDs (5 * (attempt + 1))] ++ rest.1, rest.2)
          else
            ([.reserveCall excluded, .releaseCall tok rid, .recordFail tok s],
             .upstreamError (some s))
        | none =>
            ([.reserveCall excluded, .releaseCall tok rid, .recordFail tok 0],
             .upstreamError none)

/-- `ChatService.completions` up to (and excluding) response processing:
the retry loop entered with `exclude = set()`, `last_error = None` and
attempts `range(max_retry + 1)`. -/
def completionsRun (reserve : List String → Option (String × String))
    (outcome : Nat → ChatOutcome) (maxRetry : Nat) : List Event × LoopResult :=
  completionsLoop reserve outcome maxRetry (List.range (maxRetry + 1)) [] none

/-- A two-token manager oracle mirroring `_DummyTokenManager` of
`test_chat_retry_on_non_200.py`: hands out `tokA` unless it is excluded, then
`tokB`. -/
def reserveEx : List String → Option (String × String) := fun excluded =>
  if excluded.contains "tokA" then some ("tokB", "r2") else some ("tokA", "r1")

/-- Upstream script: every attempt fails with HTTP 500. -/
def alwaysFail500 : Nat → ChatOutcome := fun _ => .upstreamErr (some 500)

/-- Upstream script: every attempt fails with a transport error, i.e. an
`UpstreamException` whose details carry no integer `status`. -/
def transportFail : Nat → ChatOutcome := fun _ => .upstreamErr none

/-- Upstream script: every attempt raises a `ValidationException`
(unknown model / unsupported message content). -/
def validationScript : Nat → ChatOutcome := fun _ => .validationErr

/-- Collaborator calls visible inside `_wrapped_stream`'s `finally` block
(chat.py lines 528-542). -/
inductive WAction where
  | syncUsage
  | statSuccess
  | statFailStream
  | release
deriving DecidableEq, Repr

/-- A Python statement as (attempted collaborator calls, raised-or-not). -/
def pyCall (a : WAction) (raises : Bool) : List WAction × Except Unit Unit :=
  ([a], if raises then .error () else .ok ())

/-- Sequencing: the second statement runs only when the first did not raise. -/
def pySeq (x y : List WAction × Except Unit Unit) :
    List WAction × Except Unit Unit :=
  match x.2 with
  | .error e => (x.1, .error e)
  | .ok _ => (x.1 ++ y.1, y.2)

/-- `try: … except Exception: pass`. -/
def pySwallow (x : List WAction × Except Unit Unit) :
    List WAction × Except Unit Unit :=
  (x.1, .ok ())

/-- `try: … finally: …`: the finaliser always runs; its error, if any, wins. -/
def pyTryFinally (x fin : List WAction × Except Unit Unit) :
    List WAction × Except Unit Unit :=
  (x.1 ++ fin.1,
   match fin.2 with
   | .error e => .error e
   | .ok _ => x.2)

/-- The `finally` block of `_wrapped_stream` (chat.py lines 528-542):
when the stream completed naturally, call `sync_usage` then record a success
request-stat, otherwise record a failed request-stat — all inside
`except Exception: pass` — and in a nested `finally`, release the reservation
inside its own `except Exception: pass`. -/
def wrappedFinalize (completed syncRaises recRaises relRaises : Bool) :
    List WAction × Except Unit Unit :=
  pyTryFinally
    (pySwallow
      (if completed then
        pySeq (pyCall .syncUsage syncRaises) (pyCall .statSuccess recRaises)
      else pyCall .statFailStream recRaises))
    (pySwallow (pyCall .release relRaises))

/-- How the consumer leaves `_wrapped_stream`: natural completion of the
processor stream, or an abort (consumer exception or cancellation) after
`consumed` chunks. -/
inductive StreamExit where
  | natural
  | aborted (consumed : Nat)
deriving DecidableEq, Repr

/-- `_wrapped_stream` (chat.py lines 522-544): yields processor chunks until
the exit, sets `completed` only on natural completion, then runs the
`finally` block.  Returns the yielded chunks, the collaborator calls of the
finaliser, and whether the finaliser itself propagates an error. -/
def wrappedStreamRun (chunks : List String) (ex : StreamExit)
    (syncRaises recRaises relRaises : Bool) :
    List String × List WAction × Except Unit Unit :=
  match ex with
  | .natural =>
      (chunks, wrappedFinalize true syncRaises recRaises relRaises)
  | .aborted k =>
      (chunks.take k, wrappedFinalize false syncRaises recRaises relRaises)

end Chat

namespace Processor

/-- Modelled from the spec: the upstream events the parser distinguishes
(§4.4; `app/services/grok/processor.py` is not part of the sources at hand):
incremental content tokens, purely structural / metadata events such as the
`llmInfo` model fingerprint, and the terminal `modelResponse` metadata. -/
inductive UpEvent where
  | token (s : String)
  | metadata
  | finalResponse (message : String)
deriving DecidableEq, Repr

/-- One OpenAI-shaped delta chunk of the streaming mode. -/
structure Chunk where
  id : String
  content : Option String
  finishReason : Option String
deriving DecidableEq, Repr

/-- One element of the streaming output: a delta chunk or the literal
terminal `[DONE]` marker. -/
inductive OutItem where
  | chunk (c : Chunk)
  | done
deriving DecidableEq, Repr

/-- The stable response id: `"chatcmpl-" + random`, generated once per
response. -/
def chatcmplId (rand : String) : String := "chatcmpl-" ++ rand

/-- The content text of a content-bearing upstream event. -/
def tokenText : UpEvent → Option String
  | .token s => some s
  | _ => none

/-- Modelled from the spec: the content chunks of the streaming mode — one
chunk per upstream content token, all carrying the single response id;
structural / metadata events emit nothing (§4.4). -/
def contentChunks (rand : String) (events : List UpEvent) : List Chunk :=
  (events.filterMap tokenText).map fun s => ⟨chatcmplId rand, some s, none⟩

/-- Stamp `finish_reason` on the last content-bearing chunk (§4.4). -/
def markFinish : List Chunk → List Chunk
  | [] => []
  | [c] => [{ c with finishReason := some "stop" }]
  | c :: rest => c :: markFinish rest

/-- Modelled from the spec: `StreamProcessor.process` (§4.4) — the lazy chunk
sequence, with `finish_reason` on the last content-bearing chunk, terminated
by the `[DONE]` marker. -/
def streamProcess (rand : String) (events : List UpEvent) : List OutItem :=
  (markFinish (contentChunks rand events)).map .chunk ++ [.done]

/-- The aggregate object of the collecting mode. -/
structure Aggregate where
  id : String
  message : String
  finishReason : String
deriving DecidableEq, Repr

/-- Modelled from the spec: `CollectProcessor.process` (§4.4) consumes the
event stream to completion and returns one aggregate object under the same
id-generation rule; the assembled message is the terminal
`modelResponse.message` when the upstream sent one, else the concatenation of
the content tokens. -/
def collectProcess (rand : String) (events : List UpEvent) : Aggregate :=
  { id := chatcmplId rand,
    message :=
      match events.reverse.findSome? (fun e => match e with
        | .finalResponse m => some m
        | _ => none) with
      | some m => m
      | none => String.join (events.filterMap tokenText),
    finishReason := "stop" }

/-- The upstream event list of the no-empty-preamble test:
`[metadata, token "Hello", token " world"]`. -/
def demoEvents : List UpEvent := [.metadata, .token "Hello", .token " world"]

end Processor

-- ======================================================================
-- Theorems
-- ======================================================================

namespace Usage

/-- C6: a 404 response from the quota endpoint arms a process-wide cooldown of
the configured duration, and every quota query issued while the cooldown is
armed returns an empty result immediately without making any network call. -/
theorem usage_cooldown_breaker (cooldownUntil now t configured : Int)
    (upstream : QuotaUpstream) (hidle : cooldownUntil ≤ now)
    (hpos : 0 < configured) (ht : t < now + configured) :
    (usageGet cooldownUntil now configured (.err 404)).cooldownUntil =
      now + configured ∧
    (usageGet cooldownUntil now configured (.err 404)).networkCalled = true ∧
    usageGet (now + configured) t configured upstream =
      ⟨.empty, now + configured, false⟩ := by
  unfold usageGet syncCooldownRemaining armSyncCooldown syncBackoffSeconds
  refine ⟨?_, ?_, ?_⟩
  · split_ifs <;> simp_all <;> omega
  · split_ifs <;> simp_all
  · split_ifs with h1
    · rfl
    · omega

/-- Closed instance of `usage_cooldown_breaker`: arming at time 0 with a
600-second backoff, then querying at time 30. -/
theorem usage_cooldown_breaker_witness :
    (usageGet 0 0 600 (.err 404)).cooldownUntil = 0 + 600 ∧
    usageGet (0 + 600) 30 600 (.ok 5) = ⟨.empty, 0 + 600, false⟩ :=
  ⟨(usage_cooldown_breaker 0 0 30 600 (.ok 5) (by decide) (by decide)
      (by decide)).1,
   (usage_cooldown_breaker 0 0 30 600 (.ok 5) (by decide) (by decide)
      (by decide)).2.2⟩

/-- C10: the usage-sync cooldown is armed only by status exactly 404, a
clamped backoff of zero or less never arms it, the stored deadline is monotone
non-decreasing, and an arming attempt whose new deadline is not later than the
stored one leaves the stored deadline unchanged. -/
theorem usage_arm_only_404_monotone (s configured now cooldownUntil : Int) :
    (s ≠ 404 → armSyncCooldown s configured now cooldownUntil = cooldownUntil) ∧
    (configured ≤ 0 →
      armSyncCooldown s configured now cooldownUntil = cooldownUntil) ∧
    cooldownUntil ≤ armSyncCooldown s configured now cooldownUntil ∧
    (now + syncBackoffSeconds configured ≤ cooldownUntil →
      armSyncCooldown s configured now cooldownUntil = cooldownUntil) := by
  unfold armSyncCooldown syncBackoffSeconds
  refine ⟨fun h => ?_, fun h => ?_, ?_, fun h => ?_⟩ <;>
    (split_ifs <;> simp_all <;> omega)

/-- Closed instance of `usage_arm_only_404_monotone`: a non-404 status, a zero
backoff, and a not-later deadline each leave the stored deadline unchanged;
a genuine arming never decreases it. -/
theorem usage_arm_only_404_monotone_witness :
    armSyncCooldown 500 600 100 7 = 7 ∧
    armSyncCooldown 404 0 100 7 = 7 ∧
    armSyncCooldown 404 600 100 800 = 800 ∧
    (7 : Int) ≤ armSyncCooldown 404 600 100 7 :=
  ⟨(usage_arm_only_404_monotone 500 600 100 7).1 (by decide),
   (usage_arm_only_404_monotone 404 0 100 7).2.1 (by decide),
   (usage_arm_only_404_monotone 404 600 100 800).2.2.2 (by decide),
   (usage_arm_only_404_monotone 404 600 100 7).2.2.1⟩

end Usage

namespace TokenMgr

/-- Token-keyed lookup commutes with a token-preserving per-record update. -/
theorem lookup_token_map_of_preserve (f : TokenInfo → TokenInfo)
    (hf : ∀ r, (f r).token = r.token) (p : TokenPool) (t : String) :
    lookup_token { p with tokens := p.tokens.map f } t =
      (lookup_token p t).map f := by
  unfold lookup_token
  dsimp only
  have hfun : ((fun r : TokenInfo => r.token == t) ∘ f) =
      fun r : TokenInfo => r.token == t := by
    funext r
    simp [Function.comp, hf]
  rw [List.find?_map, hfun]

/-- A record decomposition for a successful `find?`: the hit satisfies the
predicate and everything inserted before it fails it. -/
theorem find?_split {α} {p : α → Bool} {l : List α} {a : α}
    (h : l.find? p = some a) :
    p a = true ∧ ∃ as bs, l = as ++ a :: bs ∧ ∀ b ∈ as, p b = false := by
  obtain ⟨hp, as, bs, hsplit, hfail⟩ := List.find?_eq_some.mp h
  exact ⟨hp, as, bs, hsplit, fun b hb => by simpa using hfail b hb⟩

/-- C2: a successful reservation picks the earliest-inserted eligible record,
stamps its inflight fields with the fresh reservation id, and until that
reservation is released a second reservation within the ttl window can never
return the same token. -/
theorem reserve_earliest_and_unique (p : TokenPool) (exclude : List String)
    (now ttl : Int) (rid tok : String) (p2 : TokenPool)
    (h : reserve_token_for_model p exclude now ttl rid = (some (tok, rid), p2)) :
    (∃ r as bs, p.tokens = as ++ r :: bs ∧ r.token = tok ∧
        eligible now exclude r = true ∧
        ∀ b ∈ as, eligible now exclude b = false) ∧
    (∀ r2 ∈ p2.tokens, r2.token = tok →
        r2.inflight_until = now + ttl ∧ r2.inflight_request_id = some rid) ∧
    (∀ (now2 ttl2 : Int) (rid2 : String) (exclude2 : List String)
        (res : String × String), now2 < now + ttl →
        (reserve_token_for_model p2 exclude2 now2 ttl2 rid2).1 = some res →
        res.1 ≠ tok) := by
  unfold reserve_token_for_model at h
  cases hsel : select p now exclude with
  | none => rw [hsel] at h; exact absurd h (by simp)
  | some r =>
    rw [hsel] at h
    simp only [Prod.mk.injEq, Option.some.injEq] at h
    obtain ⟨⟨htok, -⟩, hp2⟩ := h
    unfold select at hsel
    have hstamp : ∀ r2 ∈ p2.tokens, r2.token = tok →
        r2.inflight_until = now + ttl ∧ r2.inflight_request_id = some rid := by
      intro r2 hmem htok2
      rw [← hp2] at hmem
      unfold mark_inflight at hmem
      dsimp only at hmem
      obtain ⟨a, ha, hfa⟩ := List.mem_map.mp hmem
      by_cases hat : a.token = r.token
      · rw [if_pos hat] at hfa
        rw [← hfa]
        exact ⟨rfl, rfl⟩
      · rw [if_neg hat] at hfa
        rw [← hfa] at htok2
        exact absurd (htok2.trans htok.symm) hat
    refine ⟨?_, hstamp, ?_⟩
    · obtain ⟨hpr, as, bs, hsplit, hfail⟩ := find?_split hsel
      exact ⟨r, as, bs, hsplit, htok, hpr, hfail⟩
    · intro now2 ttl2 rid2 exclude2 res hlt hr2 hres1
      unfold reserve_token_for_model at hr2
      cases hsel2 : select p2 now2 exclude2 with
      | none => rw [hsel2] at hr2; exact absurd hr2 (by simp)
      | some r2 =>
        rw [hsel2] at hr2
        simp only [Option.some.injEq] at hr2
        unfold select at hsel2
        have hmem2 := List.mem_of_find?_eq_some hsel2
        have hel2 := List.find?_some hsel2
        have htok2 : r2.token = tok := by rw [← hres1, ← hr2]
        obtain ⟨hiu, -⟩ := hstamp r2 hmem2 htok2
        simp only [eligible, Bool.and_eq_true, decide_eq_true_eq] at hel2
        omega

/-- Closed instance of `reserve_earliest_and_unique`, replaying
`test_reserve_token_avoids_duplicate_until_release`: after `tok-a` is
reserved, a second reservation 5 seconds later (inside the 60-second ttl)
returns `tok-b`, never `tok-a` again. -/
theorem reserve_earliest_and_unique_witness :
    ("tok-b", "req-2").1 ≠ "tok-a" ∧
    (reserve_token_for_model demo_pool_reserved [] 5 60 "req-2").1 =
      some ("tok-b", "req-2") :=
  ⟨(reserve_earliest_and_unique demo_pool [] 0 60 "req-1" "tok-a"
        demo_pool_reserved (by decide)).2.2
      5 60 "req-2" [] ("tok-b", "req-2") (by decide) (by decide),
   by decide⟩

/-- C3: on a token with finite quota `q ≥ 1`, the synchronous fast path of
`sync_usage(consume_on_fail=true, is_usage=true)` reports success and leaves
quota `q - 1` and `use_count` incremented, with no network involved; the
detached correction later overwrites the quota with the authoritative
remaining value, leaving `use_count` unchanged. -/
theorem sync_usage_local_then_correct (p : TokenPool) (t : String)
    (r0 : TokenInfo) (remaining : Int)
    (hfind : lookup_token p t = some r0) (hq : 1 ≤ r0.quota) :
    (sync_usage_fast p t true true).1 = true ∧
    lookup_token (sync_usage_fast p t true true).2 t =
      some { r0 with quota := r0.quota - 1, use_count := r0.use_count + 1 } ∧
    lookup_token
        (sync_usage_correct (sync_usage_fast p t true true).2 t remaining) t =
      some { r0 with quota := remaining, use_count := r0.use_count + 1 } := by
  have hfind2 : p.tokens.find? (fun r => r.token == t) = some r0 := hfind
  have hpred := List.find?_some hfind2
  have ht0 : r0.token = t := by simpa using hpred
  have hany : p.tokens.any (fun r => r.token == t) = true :=
    List.any_eq_true.mpr ⟨r0, List.mem_of_find?_eq_some hfind2, hpred⟩
  have hfast : sync_usage_fast p t true true =
      (true, { p with tokens := p.tokens.map fun r =>
        if r.token = t then
          { r with quota := consume_quota r.quota,
                   use_count := r.use_count + 1 }
        else r }) := by
    simp [sync_usage_fast, hany]
  have hpres1 : ∀ r : TokenInfo,
      ((fun r : TokenInfo =>
        if r.token = t then
          { r with quota := consume_quota r.quota,
                   use_count := r.use_count + 1 }
        else r) r).token = r.token := by
    intro r; by_cases hr : r.token = t <;> simp [hr]
  have hlook1 : lookup_token (sync_usage_fast p t true true).2 t =
      some { r0 with quota := r0.quota - 1, use_count := r0.use_count + 1 } := by
    rw [hfast]
    dsimp only
    rw [lookup_token_map_of_preserve _ hpres1 p t, hfind]
    simp only [Option.map_some']
    rw [if_pos ht0]
    simp [consume_quota, show ¬(r0.quota < 0) from by omega]
  have hpres2 : ∀ r : TokenInfo,
      ((fun r : TokenInfo =>
        if r.token = t then { r with quota := remaining } else r) r).token =
        r.token := by
    intro r; by_cases hr : r.token = t <;> simp [hr]
  refine ⟨by rw [hfast], hlook1, ?_⟩
  unfold sync_usage_correct
  rw [lookup_token_map_of_preserve _ hpres2, hlook1]
  simp only [Option.map_some']
  rw [if_pos (by simpa using ht0)]

/-- Closed instance of `sync_usage_local_then_correct`, replaying
`test_sync_usage_consumes_locally_before_remote_sync`: quota 10 drops to 9 on
the fast path, then to 7 once the correction resolves with remaining 7,
`use_count` staying at 1. -/
theorem sync_usage_local_then_correct_witness :
    (sync_usage_fast demo_pool_q "tok-1" true true).1 = true ∧
    lookup_token (sync_usage_fast demo_pool_q "tok-1" true true).2 "tok-1" =
      some ⟨"tok-1", .ACTIVE, 9, -1, 1, 0, 0, none⟩ ∧
    lookup_token
        (sync_usage_correct (sync_usage_fast demo_pool_q "tok-1" true true).2
          "tok-1" 7) "tok-1" =
      some ⟨"tok-1", .ACTIVE, 7, -1, 1, 0, 0, none⟩ :=
  ⟨(sync_usage_local_then_correct demo_pool_q "tok-1"
      ⟨"tok-1", .ACTIVE, 10, -1, 0, 0, 0, none⟩ 7 (by decide) (by decide)).1,
   (sync_usage_local_then_correct demo_pool_q "tok-1"
      ⟨"tok-1", .ACTIVE, 10, -1, 0, 0, 0, none⟩ 7 (by decide) (by decide)).2.1,
   (sync_usage_local_then_correct demo_pool_q "tok-1"
      ⟨"tok-1", .ACTIVE, 10, -1, 0, 0, 0, none⟩ 7 (by decide) (by decide)).2.2⟩


/-- A cleared record never matches the same reservation id again. -/
theorem release_match_clear (t rid : String) (r : TokenInfo) :
    release_match t rid (clear_if_match t rid r) = false := by
  by_cases h : release_match t rid r = true
  · rw [clear_if_match, if_pos h]
    simp [release_match]
  · rw [clear_if_match, if_neg (by simp [h])]
    simpa using h

/-- C7: `release_token_reservation` reports a release exactly when some record
carries the token with the matching stored reservation id; releasing again
with the same id is a safe no-op returning `false`; a stale id is a no-op on
the whole pool; and after a matching release the cleared record is back in the
pool and immediately eligible for re-selection. -/
theorem release_matching_and_reselect (p : TokenPool) (t rid : String)
    (now : Int) (exclude : List String) :
    ((release_token_reservation p t rid).1 = true ↔
      ∃ r ∈ p.tokens, r.token = t ∧ r.inflight_request_id = some rid) ∧
    release_token_reservation (release_token_reservation p t rid).2 t rid =
      (false, (release_token_reservation p t rid).2) ∧
    ((¬ ∃ r ∈ p.tokens, r.token = t ∧ r.inflight_request_id = some rid) →
      release_token_reservation p t rid = (false, p)) ∧
    (∀ r ∈ p.tokens, r.token = t → r.inflight_request_id = some rid →
      r.status = .ACTIVE → (r.quota < 0 ∨ 0 < r.quota) → t ∉ exclude →
      0 ≤ now →
      { r with inflight_until := 0, inflight_request_id := none } ∈
          (release_token_reservation p t rid).2.tokens ∧
      eligible now exclude
        { r with inflight_until := 0, inflight_request_id := none } = true) := by
  have hiff : p.tokens.any (release_match t rid) = true ↔
      ∃ r ∈ p.tokens, r.token = t ∧ r.inflight_request_id = some rid := by
    rw [List.any_eq_true]
    constructor
    · rintro ⟨r, hr, hpred⟩
      have h2 : r.token = t ∧ r.inflight_request_id = some rid := by
        simpa [release_match] using hpred
      exact ⟨r, hr, h2⟩
    · rintro ⟨r, hr, h1, h2⟩
      exact ⟨r, hr, by simp [release_match, h1, h2]⟩
  refine ⟨?_, ?_, ?_, ?_⟩
  · unfold release_token_reservation
    by_cases hany : p.tokens.any (release_match t rid) = true
    · rw [if_pos hany]
      simpa using hiff.mp hany
    · rw [if_neg hany]
      simp only [Bool.false_eq_true, false_iff]
      exact fun hex => hany (hiff.mpr hex)
  · by_cases hany : p.tokens.any (release_match t rid) = true
    · have hsnd : (release_token_reservation p t rid).2 =
          { p with tokens := p.tokens.map (clear_if_match t rid) } := by
        unfold release_token_reservation
        rw [if_pos hany]
      have hany2 : ({ p with tokens := p.tokens.map (clear_if_match t rid) } :
          TokenPool).tokens.any (release_match t rid) = false := by
        dsimp only
        rw [List.any_map]
        have hcomp : (release_match t rid ∘ clear_if_match t rid) =
            fun _ : TokenInfo => false :=
          funext fun r => release_match_clear t rid r
        rw [hcomp]
        simp
      rw [hsnd]
      unfold release_token_reservation
      rw [if_neg (by simp [hany2])]
    · have hsnd : release_token_reservation p t rid = (false, p) := by
        unfold release_token_reservation
        rw [if_neg hany]
      rw [hsnd]
      exact hsnd
  · intro hex
    unfold release_token_reservation
    rw [if_neg (fun hany => hex (hiff.mp hany))]
  · intro r hr ht1 hid1 hst hq hnex hnow
    have hpred : release_match t rid r = true := by
      simp [release_match, ht1, hid1]
    have hany : p.tokens.any (release_match t rid) = true :=
      List.any_eq_true.mpr ⟨r, hr, hpred⟩
    constructor
    · unfold release_token_reservation
      rw [if_pos hany]
      dsimp only
      have hclear : clear_if_match t rid r =
          { r with inflight_until := 0, inflight_request_id := none } := by
        rw [clear_if_match, if_pos hpred]
      exact hclear ▸ List.mem_map_of_mem (clear_if_match t rid) hr
    · rcases hq with hq | hq <;>
        simp [eligible, hst, ht1, hnex, hnow, hq]

/-- Closed instance of `release_matching_and_reselect`, replaying the release
half of `test_reserve_token_avoids_duplicate_until_release`: releasing
`tok-a` with its own reservation id reports `true`, and the cleared `tok-a`
record is back in the pool and eligible again at once. -/
theorem release_matching_and_reselect_witness :
    (release_token_reservation demo_pool_reserved "tok-a" "req-1").1 = true ∧
    ({ demo_rec_a with inflight_until := 0, inflight_request_id := none } ∈
        (release_token_reservation demo_pool_reserved "tok-a" "req-1").2.tokens ∧
      eligible 0 []
        { demo_rec_a with inflight_until := 0, inflight_request_id := none } =
        true) :=
  ⟨(release_matching_and_reselect demo_pool_reserved "tok-a" "req-1" 0 []).1.mpr
      ⟨demo_rec_a, by decide, by decide, by decide⟩,
   (release_matching_and_reselect demo_pool_reserved "tok-a" "req-1" 0 []).2.2.2
      demo_rec_a (by decide) (by decide) (by decide) (by decide) (by decide)
      (by decide) (by decide)⟩

end TokenMgr


namespace Chat

/-- C1 (amended): on an upstream failure carrying an integer status other than
200 with attempts remaining, the loop releases the reservation, records the
failure, sleeps the linear backoff of 0.5 s × attempt number, and re-enters
with the failed token added to the exclude set — no status-code whitelist
among integer statuses; with attempts exhausted the same failure re-raises
the upstream error directly, recording no failed request-stat; an upstream
failure carrying no integer status (transport error) re-raises immediately,
whether or not attempts remain. -/
theorem chat_retry_switches_on_any_int_status
    (reserve : List String → Option (String × String))
    (outcome : Nat → ChatOutcome) (maxRetry attempt : Nat)
    (restAttempts : List Nat) (excluded : List String)
    (lastError : Option (Option Int)) (tok rid : String) (s : Int)
    (hres : reserve excluded = some (tok, rid)) :
    (outcome attempt = .upstreamErr (some s) → s ≠ 200 → attempt < maxRetry →
      completionsLoop reserve outcome maxRetry (attempt :: restAttempts)
          excluded lastError =
        ([.reserveCall excluded, .releaseCall tok rid, .recordFail tok s,
          .sleepDs (5 * (attempt + 1))] ++
            (completionsLoop reserve outcome maxRetry restAttempts
              (excluded ++ [tok]) (some (some s))).1,
         (completionsLoop reserve outcome maxRetry restAttempts
           (excluded ++ [tok]) (some (some s))).2)) ∧
    (outcome attempt = .upstreamErr (some s) → s ≠ 200 → maxRetry ≤ attempt →
      completionsLoop reserve outcome maxRetry (attempt :: restAttempts)
          excluded lastError =
        ([.reserveCall excluded, .releaseCall tok rid, .recordFail tok s],
         .upstreamError (some s))) ∧
    (outcome attempt = .upstreamErr none →
      completionsLoop reserve outcome maxRetry (attempt :: restAttempts)
          excluded lastError =
        ([.reserveCall excluded, .releaseCall tok rid, .recordFail tok 0],
         .upstreamError none)) := by
  refine ⟨fun hout hs hlt => ?_, fun hout hs hge => ?_, fun hout => ?_⟩ <;>
    simp only [completionsLoop, hres, hout]
  · rw [if_pos ⟨hs, hlt⟩]
  · rw [if_neg (by rintro ⟨-, hcon⟩; omega)]

/-- Closed instance of `chat_retry_switches_on_any_int_status`, the spec's
own scenario: two tokens, `max_retry = 1`, upstream always answering 500 —
the first failure releases `tokA`, records the 500, sleeps 0.5 s and re-enters
with `tokA` excluded. -/
theorem chat_retry_switches_witness :
    completionsLoop reserveEx alwaysFail500 1 [0, 1] [] none =
      ([.reserveCall [], .releaseCall "tokA" "r1", .recordFail "tokA" 500,
        .sleepDs (5 * (0 + 1))] ++
          (completionsLoop reserveEx alwaysFail500 1 [1] ([] ++ ["tokA"])
            (some (some 500))).1,
       (completionsLoop reserveEx alwaysFail500 1 [1] ([] ++ ["tokA"])
         (some (some 500))).2) :=
  (chat_retry_switches_on_any_int_status reserveEx alwaysFail500 1 0 [1] []
      none "tokA" "r1" 500 (by decide)).1 (by decide) (by decide) (by decide)

/-- C1 counterexample: with `max_retry = 1` (an attempt remains) a transport
error — an upstream failure without an integer status — is re-raised after a
single reservation: no second reservation, no backoff sleep, and no failed
request-stat is recorded on this path, contrary to the claim that every
upstream error (non-2xx or transport) is retried and that exhaustion records
a failed request-stat. -/
theorem chat_retry_transport_counterexample :
    completionsRun reserveEx transportFail 1 =
      ([.reserveCall [], .releaseCall "tokA" "r1", .recordFail "tokA" 0],
       .upstreamError none) ∧
    Event.statFail ∉ (completionsRun reserveEx transportFail 1).1 ∧
    (completionsRun reserveEx transportFail 1).1.filter
        (fun e => match e with | .reserveCall _ => true | _ => false) =
      [.reserveCall []] := by
  decide

/-- C4: the wrapped stream releases the reservation on every exit path,
calls `sync_usage` exactly when the stream completes naturally, records a
success request-stat only on natural completion (and only when `sync_usage`
did not raise), records a failed request-stat on every other exit, and the
finaliser never propagates an error — in particular an error raised by the
release itself is swallowed. -/
theorem wrapped_stream_release_on_every_exit (chunks : List String)
    (ex : StreamExit) (syncRaises recRaises relRaises : Bool) :
    WAction.release ∈
      (wrappedStreamRun chunks ex syncRaises recRaises relRaises).2.1 ∧
    (WAction.syncUsage ∈
        (wrappedStreamRun chunks ex syncRaises recRaises relRaises).2.1 ↔
      ex = .natural) ∧
    (WAction.statSuccess ∈
        (wrappedStreamRun chunks ex syncRaises recRaises relRaises).2.1 ↔
      ex = .natural ∧ syncRaises = false) ∧
    (WAction.statFailStream ∈
        (wrappedStreamRun chunks ex syncRaises recRaises relRaises).2.1 ↔
      ex ≠ .natural) ∧
    (wrappedStreamRun chunks ex syncRaises recRaises relRaises).2.2 =
      .ok () := by
  cases ex <;> cases syncRaises <;>
    simp [wrappedStreamRun, wrappedFinalize, pySwallow, pyTryFinally, pySeq,
      pyCall]

/-- C5 (amended): a validation failure raised by `chat_openai` propagates
immediately — no retry, no `record_fail`, no quota consumption — after
releasing the token reservation that was taken for the attempt, and a failed
request-stat is recorded. -/
theorem chat_validation_short_circuit
    (reserve : List String → Option (String × String))
    (outcome : Nat → ChatOutcome) (maxRetry attempt : Nat)
    (restAttempts : List Nat) (excluded : List String)
    (lastError : Option (Option Int)) (tok rid : String)
    (hres : reserve excluded = some (tok, rid))
    (hout : outcome attempt = .validationErr) :
    completionsLoop reserve outcome maxRetry (attempt :: restAttempts)
        excluded lastError =
      ([.reserveCall excluded, .releaseCall tok rid, .statFail],
       .validationError) := by
  simp only [completionsLoop, hres, hout]

/-- Closed instance of `chat_validation_short_circuit`: an unknown-model
request with two tokens available fails after exactly one
reserve-release pair and no further event. -/
theorem chat_validation_short_circuit_witness :
    completionsLoop reserveEx validationScript 1 [0, 1] [] none =
      ([.reserveCall [], .releaseCall "tokA" "r1", .statFail],
       .validationError) :=
  chat_validation_short_circuit reserveEx validationScript 1 0 [1] [] none
    "tokA" "r1" (by decide) (by decide)

/-- C5 counterexample: on a validation failure a token reservation is in fact
taken (and then released) — `reserve_token_for_model` runs before validation
inside `chat_openai` — contrary to the claim that no token reservation is
consumed. -/
theorem chat_validation_reserves_counterexample :
    Event.reserveCall [] ∈ (completionsRun reserveEx validationScript 1).1 ∧
    Event.releaseCall "tokA" "r1" ∈
      (completionsRun reserveEx validationScript 1).1 := by
  decide

end Chat

namespace Processor

/-- `markFinish` only stamps `finish_reason`: every output chunk keeps the id
and content of some input chunk. -/
theorem mem_markFinish {l : List Chunk} {c : Chunk} (h : c ∈ markFinish l) :
    ∃ c0 ∈ l, c.id = c0.id ∧ c.content = c0.content := by
  induction l with
  | nil => simp [markFinish] at h
  | cons a l ih =>
    cases l with
    | nil =>
      simp only [markFinish, List.mem_singleton] at h
      exact ⟨a, List.mem_singleton_self a, by rw [h], by rw [h]⟩
    | cons b l2 =>
      rw [show markFinish (a :: b :: l2) = a :: markFinish (b :: l2) from
        rfl] at h
      rcases List.mem_cons.mp h with h1 | h2
      · exact ⟨a, List.mem_cons_self a (b :: l2), by rw [h1], by rw [h1]⟩
      · obtain ⟨c0, hc0, hids⟩ := ih h2
        exact ⟨c0, List.mem_cons_of_mem a hc0, hids⟩

/-- C8: every chunk of a streaming response carries the single
`"chatcmpl-"`-prefixed response id, the sequence terminates with the literal
`[DONE]` marker, the marker is distinct from every content chunk, and the
collecting mode stamps the same single id on its aggregate object. -/
theorem stream_and_collect_stable_id (rand : String) (events : List UpEvent) :
    (∀ c : Chunk, OutItem.chunk c ∈ streamProcess rand events →
      c.id = chatcmplId rand) ∧
    (streamProcess rand events).getLast? = some .done ∧
    (∀ c : Chunk, OutItem.done ≠ OutItem.chunk c) ∧
    (collectProcess rand events).id = chatcmplId rand ∧
    ∃ tail, chatcmplId rand = "chatcmpl-" ++ tail := by
  refine ⟨?_, ?_, ?_, rfl, ⟨rand, rfl⟩⟩
  · intro c hc
    unfold streamProcess at hc
    rcases List.mem_append.mp hc with h1 | h2
    · obtain ⟨c1, hc1, heq⟩ := List.mem_map.mp h1
      have hcc : c1 = c := by
        injection heq
      subst hcc
      obtain ⟨c0, hc0, hid, -⟩ := mem_markFinish hc1
      unfold contentChunks at hc0
      obtain ⟨s, -, hmk⟩ := List.mem_map.mp hc0
      rw [hid, ← hmk]
    · simp at h2
  · unfold streamProcess
    exact List.getLast?_concat _
  · intro c h
    exact OutItem.noConfusion h

/-- Closed instance of `stream_and_collect_stable_id`: the first content
chunk of the demo stream carries the response id. -/
theorem stream_and_collect_stable_id_witness :
    (⟨chatcmplId "abc", some "Hello", none⟩ : Chunk).id = chatcmplId "abc" :=
  (stream_and_collect_stable_id "abc" demoEvents).1
    ⟨chatcmplId "abc", some "Hello", none⟩ (by decide)

/-- C9: purely structural / metadata events produce no output chunks (an
event list without content tokens streams as just the terminal marker), and
when the upstream content tokens start with `s` the first output chunk is a
content chunk whose delta content is exactly `s` — never an empty role-only
preamble. -/
theorem stream_no_empty_preamble (rand : String) (events : List UpEvent)
    (s : String) (rest : List String) :
    (events.filterMap tokenText = [] →
      streamProcess rand events = [.done]) ∧
    (events.filterMap tokenText = s :: rest →
      ∃ c restOut,
        streamProcess rand events = OutItem.chunk c :: restOut ∧
        c.content = some s) := by
  constructor
  · intro h
    unfold streamProcess contentChunks
    rw [h]
    rfl
  · intro h
    unfold streamProcess contentChunks
    rw [h]
    cases rest with
    | nil =>
      exact ⟨⟨chatcmplId rand, some s, some "stop"⟩, [.done], rfl, rfl⟩
    | cons b l =>
      exact ⟨⟨chatcmplId rand, some s, none⟩,
        (markFinish (⟨chatcmplId rand, some b, none⟩ ::
            l.map fun s2 => (⟨chatcmplId rand, some s2, none⟩ : Chunk))).map
            OutItem.chunk ++ [OutItem.done],
        by simp [markFinish], rfl⟩

/-- Closed instance of `stream_no_empty_preamble` on the test's event list
`[metadata, token "Hello", token " world"]`: the first emitted chunk carries
content `"Hello"`. -/
theorem stream_no_empty_preamble_witness :
    ∃ c restOut,
      streamProcess "abc" demoEvents = OutItem.chunk c :: restOut ∧
      c.content = some "Hello" :=
  (stream_no_empty_preamble "abc" demoEvents "Hello" [" world"]).2 (by decide)

end Processor
